import Mathlib

/-!
Verification of the jeel transcoding core.

Shallow embedding of `src/core/ffmpeg_utils.py` and `src/core/converter.py`:
command construction, preflight validation, the disk-space guard, progress
parsing, and the supervisor event trace of `ConversionThread.run` / `stop`.

Modelling conventions:
* Python floats are modelled as exact rationals (`ℚ`); the literal `1.1`
  becomes `11/10`.
* Python `int()` truncation toward zero is `pyInt`.
* Fallible calls return `Except PyExc _`, a `PyExc` being the class and
  message of the raised exception.
* External effects (filesystem, subprocesses) are passed in as explicit
  environment records; each field is documented with the call it stands for.
-/

namespace Jeel

/-! ## Character and string helpers (List Char level, so everything reduces) -/

/-- Python `str.split(sep)` for a one-character separator: keeps empty parts,
`"".split(sep) == [""]`. -/
def splitOnChar (sep : Char) : List Char → List (List Char)
  | [] => [[]]
  | c :: cs =>
    if c = sep then [] :: splitOnChar sep cs
    else
      match splitOnChar sep cs with
      | t :: ts => (c :: t) :: ts
      | [] => [[c]]

/-- Greedy run of decimal digits, as matched by a regex `\d+` that is followed
by a non-digit literal (so no backtracking can apply). Returns the digit run
and the rest. -/
def takeDigits : List Char → List Char × List Char
  | [] => ([], [])
  | c :: cs =>
    if c.isDigit then
      let p := takeDigits cs
      (c :: p.1, p.2)
    else ([], c :: cs)

/-- Numeric value of a decimal digit string. -/
def digitsToNat (cs : List Char) : ℕ :=
  cs.foldl (fun a c => 10 * a + (c.toNat - 48)) 0

/-- Python `float(s)` restricted to the inputs reachable in `parse_duration`
via the regex capture: nonempty strings of decimal digits. On anything else
the model reports failure (`none`), matching `float` raising on the strings
that actually occur there (empty or containing the separator chars). -/
def parseFloatDigits (cs : List Char) : Option ℕ :=
  if cs.isEmpty then none
  else if cs.all Char.isDigit then some (digitsToNat cs) else none

/-- Python `float("0." + s)`: succeeds on a (possibly empty) digit string,
value `digits / 10 ^ len` (`float("0.") == 0.0`). -/
def fracFloat (cs : List Char) : Option ℚ :=
  if cs.all Char.isDigit then some ((digitsToNat cs : ℚ) / 10 ^ cs.length)
  else none

/-- Python `int()` for floats: truncation toward zero. -/
def pyInt (q : ℚ) : ℤ := if 0 ≤ q then ⌊q⌋ else ⌈q⌉

/-- Python `str.strip()`: drop whitespace from both ends. -/
def pyStrip (s : String) : String :=
  String.mk (((s.data.dropWhile Char.isWhitespace).reverse.dropWhile
    Char.isWhitespace).reverse)

/-! ## The time-marker regex

`re.search(r"time=(\d+:\d+:\d+\.\d+)", line)`: leftmost occurrence of the
literal `time=` followed by the capture group. Every `\d+` in the pattern is
followed by a fixed non-digit character (or the end of the pattern), so the
greedy maximal-munch scan below is exactly the regex engine behaviour. -/

/-- Match the capture group `\d+:\d+:\d+\.\d+` at the head of `cs`; returns
the captured characters. -/
def matchCapture (cs : List Char) : Option (List Char) :=
  let p1 := takeDigits cs
  if p1.1.isEmpty then none else
  match p1.2 with
  | c1 :: r2 =>
    if c1 = ':' then
      let p2 := takeDigits r2
      if p2.1.isEmpty then none else
      match p2.2 with
      | c2 :: r4 =>
        if c2 = ':' then
          let p3 := takeDigits r4
          if p3.1.isEmpty then none else
          match p3.2 with
          | c3 :: r6 =>
            if c3 = '.' then
              let p4 := takeDigits r6
              if p4.1.isEmpty then none else
              some (p1.1 ++ ':' :: (p2.1 ++ ':' :: (p3.1 ++ '.' :: p4.1)))
            else none
          | [] => none
        else none
      | [] => none
    else none
  | [] => none

/-- Try the whole pattern anchored at the head of `cs`. -/
def matchAnchorAt (cs : List Char) : Option (List Char) :=
  match cs with
  | c1 :: c2 :: c3 :: c4 :: c5 :: rest =>
    if c1 = 't' ∧ c2 = 'i' ∧ c3 = 'm' ∧ c4 = 'e' ∧ c5 = '=' then
      matchCapture rest
    else none
  | _ => none

/-- `re.search`: first position (leftmost) where the pattern matches; yields
the capture group. -/
def searchTimeMarker : List Char → Option (List Char)
  | [] => none
  | c :: cs =>
    match matchAnchorAt (c :: cs) with
    | some cap => some cap
    | none => searchTimeMarker cs

/-! ## ffmpeg_utils.parse_duration / parse_progress -/

/-- `parse_duration` (ffmpeg_utils.py lines 51-64): split on `:`; when there
are exactly three parts, seconds are split on `.`, the integer part parsed
with `float`, a second part (if any) parsed as `float("0." + part)` (parts
beyond the second are ignored); any `float` failure or a different shape
returns 0. -/
def parse_duration (s : String) : ℚ :=
  match splitOnChar ':' s.data with
  | [hh, mm, ss] =>
    match splitOnChar '.' ss with
    | [] => 0
    | s0 :: rest =>
      match parseFloatDigits s0 with
      | none => 0
      | some sec0 =>
        match rest with
        | [] =>
          match parseFloatDigits hh, parseFloatDigits mm with
          | some hv, some mv => (hv : ℚ) * 3600 + (mv : ℚ) * 60 + (sec0 : ℚ)
          | _, _ => 0
        | s1 :: _ =>
          match fracFloat s1 with
          | none => 0
          | some fr =>
            match parseFloatDigits hh, parseFloatDigits mm with
            | some hv, some mv => (hv : ℚ) * 3600 + (mv : ℚ) * 60 + (sec0 : ℚ) + fr
            | _, _ => 0
  | _ => 0

/-- `parse_progress` (ffmpeg_utils.py lines 66-73): search the line for the
time marker; if found and the total duration is positive, return
`min (int (current / total * 100)) 100`, else `None`. -/
def parse_progress (line : String) (total_duration : ℚ) : Option ℤ :=
  match searchTimeMarker line.data with
  | some cap =>
    if 0 < total_duration then
      let current_time := parse_duration (String.mk cap)
      let progress := pyInt (current_time / total_duration * 100)
      some (min progress 100)
    else none
  | none => none

/-! ## Quality presets and the command builder -/

structure QualitySettings where
  crf : String
  preset : String
  audio_bitrate : String
deriving DecidableEq

/-- `get_quality_settings` (ffmpeg_utils.py lines 40-49): the four presets,
with `dict.get` defaulting to `balanceado`. -/
def get_quality_settings (quality_preset : String) : QualitySettings :=
  if quality_preset = "alta_calidad" then ⟨"18", "slow", "192k"⟩
  else if quality_preset = "balanceado" then ⟨"23", "medium", "128k"⟩
  else if quality_preset = "compresion" then ⟨"28", "fast", "96k"⟩
  else if quality_preset = "extrema" then ⟨"32", "veryfast", "64k"⟩
  else ⟨"23", "medium", "128k"⟩

/-- The apostrophe character (0x27). -/
def squote : Char := '\x27'

/-- The double-quote character (0x22). -/
def dquote : Char := '\x22'

/-- Characters `shlex.quote` treats as safe: ASCII `\w` plus
`@` `%` `+` `=` `:` `,` `.` `/` `-`. -/
def shlexSafeChar (c : Char) : Bool :=
  c.isAlpha || c.isDigit || c = '_' || c = '@' || c = '%' || c = '+' ||
    c = '=' || c = ':' || c = ',' || c = '.' || c = '/' || c = '-'

/-- Python `shlex.quote`: empty string becomes two apostrophes, fully safe
strings are returned unchanged, anything else is wrapped in apostrophes with
each inner apostrophe replaced by the 5-character escape. -/
def shlex_quote (s : String) : String :=
  if s.data.isEmpty then String.mk [squote, squote]
  else if s.data.all shlexSafeChar then s
  else
    String.mk (squote ::
      (s.data.flatMap fun c =>
        if c = squote then [squote, dquote, squote, dquote, squote] else [c])
      ++ [squote])

/-- Index of the last occurrence of `c` (Python `str.rfind`, as an Option). -/
def rfindIdx (c : Char) : List Char → Option ℕ
  | [] => none
  | x :: xs =>
    match rfindIdx c xs with
    | some i => some (i + 1)
    | none => if x = c then some 0 else none

/-- `PurePosixPath(p).name`: the last component, with empty and `.` components
dropped (`converter.run` normalizes both paths to POSIX form before the
builder is called). -/
def path_name (p : String) : String :=
  match ((splitOnChar '/' p.data).filter fun comp =>
      !(comp.isEmpty || comp == ['.'])).getLast? with
  | some n => String.mk n
  | none => ""

/-- `PurePosixPath(p).suffix`: the part of the name from its last dot on,
provided that dot is neither the first nor the last character of the name. -/
def path_suffix (p : String) : String :=
  let name := (path_name p).data
  match rfindIdx '.' name with
  | some i => if 0 < i ∧ i + 1 < name.length then String.mk (name.drop i) else ""
  | none => ""

/-- Python `str.lower()` (ASCII case mapping, which is what the extensions
use). -/
def lowerStr (s : String) : String := String.mk (s.data.map Char.toLower)

structure CodecConfig where
  vcodec : String
  acodec : String
  qscale : Option String
deriving DecidableEq

/-- The `codec_configs` dictionary of `get_ffmpeg_command` with its
`dict.get(ext, codec_configs[".mp4"])` lookup (ffmpeg_utils.py lines
104-113). -/
def codec_lookup (ext : String) : CodecConfig :=
  if ext = ".mp4" then ⟨"libx264", "aac", none⟩
  else if ext = ".webm" then ⟨"libvpx-vp9", "libopus", none⟩
  else if ext = ".mov" then ⟨"libx264", "aac", none⟩
  else if ext = ".mkv" then ⟨"libx264", "aac", none⟩
  else if ext = ".avi" then ⟨"mpeg4", "mp3", some "5"⟩
  else ⟨"libx264", "aac", none⟩

/-- `get_ffmpeg_command` (ffmpeg_utils.py lines 90-129). `mode == "convert"`
copies both codecs; every other mode is the compression path: codec config
from the lower-cased output suffix, `-qscale:v` for a qscale profile,
otherwise `-crf` plus (for a truthy preset string) `-preset`, then the audio
codec and bitrate, the quoted output and `-y`. -/
def get_ffmpeg_command (input_file output_file mode quality_preset : String) :
    List String :=
  if mode = "convert" then
    ["ffmpeg", "-i", shlex_quote input_file,
      "-c:v", "copy", "-c:a", "copy",
      shlex_quote output_file, "-y"]
  else
    let quality_settings := get_quality_settings quality_preset
    let output_ext := lowerStr (path_suffix output_file)
    let config := codec_lookup output_ext
    let cmd := ["ffmpeg", "-i", shlex_quote input_file]
    let cmd := cmd ++
      (match config.qscale with
        | some q => ["-c:v", config.vcodec, "-qscale:v", q]
        | none =>
          ["-c:v", config.vcodec, "-crf", quality_settings.crf] ++
            (if quality_settings.preset ≠ "" then
              ["-preset", quality_settings.preset] else []))
    cmd ++ ["-c:a", config.acodec, "-b:a", quality_settings.audio_bitrate,
      shlex_quote output_file, "-y"]

/-! ## Exceptions and preflight checks

`src/core/exceptions.py` is imported by the core but is not under `src/`. -/

/-- Modelled from the spec: the exception classes of the missing
`src/core/exceptions.py` (design note §9 describes them as parallel
`Exception` subclasses: tool-missing, corrupted-file, conversion-error),
plus the builtin classes the core also raises. -/
inductive ExcClass where
  | ffmpegNotFound
  | corruptedFile
  | conversionErr
  | fileNotFound
  | attrError
deriving DecidableEq

/-- A raised Python exception: its class and its message (`str(e)`). -/
structure PyExc where
  cls : ExcClass
  msg : String
deriving DecidableEq

/-- The message of the empty-input raise (ffmpeg_utils.py line 22). -/
def emptyInputMsg : String := "El archivo de entrada está vacío"

/-- `check_ffmpeg_availability` (ffmpeg_utils.py lines 8-14): the two version
probes either both succeed or the function raises `FFmpegNotFoundError`. -/
def check_ffmpeg_availability (available : Bool) : Except PyExc Unit :=
  if available then Except.ok ()
  else Except.error ⟨ExcClass.ffmpegNotFound,
    "FFmpeg no encontrado. Instálalo y agrégalo al PATH"⟩

/-- Result of the ffprobe stream-validity subprocess in
`validate_input_file`. -/
inductive ProbeOutcome where
  | timeout
  | fail
  | ok (stdout : String)

/-- Filesystem and probe state of the input file. -/
structure InputEnv where
  /-- The input path (used in the missing-file message). -/
  path : String
  /-- `os.path.exists(input_file)` -/
  present : Bool
  /-- `os.path.getsize(input_file)` -/
  size : ℕ
  /-- the ffprobe stream-type query -/
  probe : ProbeOutcome

/-- `validate_input_file` (ffmpeg_utils.py lines 16-38): missing file →
`FileNotFoundError`; zero size → `CorruptedFileError` with the empty-input
message; then the ffprobe query, whose timeout / failure / empty output each
raise a `CorruptedFileError` with its own message. -/
def validate_input_file (env : InputEnv) : Except PyExc Unit :=
  if !env.present then
    Except.error ⟨ExcClass.fileNotFound, "El archivo no existe: " ++ env.path⟩
  else if env.size = 0 then
    Except.error ⟨ExcClass.corruptedFile, emptyInputMsg⟩
  else
    match env.probe with
    | ProbeOutcome.timeout =>
      Except.error ⟨ExcClass.corruptedFile, "Timeout al validar el archivo de video"⟩
    | ProbeOutcome.fail =>
      Except.error ⟨ExcClass.corruptedFile,
        "El archivo no es un video válido o está corrupto"⟩
    | ProbeOutcome.ok stdout =>
      if (pyStrip stdout).data.isEmpty then
        Except.error ⟨ExcClass.corruptedFile,
          "El archivo no contiene stream de video válido"⟩
      else Except.ok ()

/-! ## Disk space guard -/

/-- Filesystem state seen by `check_disk_space`. -/
structure DiskEnv where
  /-- `Path(output_file).exists()` -/
  outputExists : Bool
  /-- `Path(output_file).stat().st_size` -/
  outputSize : ℕ
  /-- the free space the `os.path.getfree` call would report; `none` models
  the call raising. In CPython `os.path` has no attribute `getfree` at all,
  so the real call always raises `AttributeError` (`none`); `some` lets the
  model also cover a hypothetical platform where the lookup works. -/
  freeSpace : Option ℕ

/-- The body of the `try` block of `check_disk_space` (ffmpeg_utils.py lines
81-85), including the `required_bytes` adjustment done just before it (lines
78-79, an `Int` since the existing output may be larger than the estimate):
raises on an undeterminable free space, raises `ConversionError` when
`free_space < required_bytes * 1.1` (the float literal `1.1` modelled as
`11/10`; Python `//` is floor division, `Int.fdiv`). -/
def check_disk_space_attempt (env : DiskEnv) (required_bytes : ℕ) :
    Except PyExc Unit :=
  let required : ℤ :=
    if env.outputExists then (required_bytes : ℤ) - (env.outputSize : ℤ)
    else (required_bytes : ℤ)
  match env.freeSpace with
  | none =>
    Except.error ⟨ExcClass.attrError, "module posixpath has no attribute getfree"⟩
  | some free =>
    if (free : ℚ) < (required : ℚ) * (11 / 10) then
      Except.error ⟨ExcClass.conversionErr,
        "Espacio en disco insuficiente. Se requieren " ++
          toString (Int.fdiv required (1024 * 1024)) ++ "MB"⟩
    else Except.ok ()

/-- `check_disk_space` (ffmpeg_utils.py lines 75-88): the whole `try` body
runs under `except Exception: pass`, so every exception it raises — including
the `ConversionError` the guard itself raises on insufficient space — is
swallowed, and the function always returns normally. -/
def check_disk_space (env : DiskEnv) (required_bytes : ℕ) : Except PyExc Unit :=
  match check_disk_space_attempt env required_bytes with
  | Except.error _ => Except.ok ()
  | Except.ok _ => Except.ok ()

/-! ## The spec-side error taxonomy -/

/-- Modelled from the spec: the closed `ErrorKind` sum of §7. -/
inductive ErrorKind where
  | toolNotFound
  | inputMissing
  | inputEmpty
  | inputCorrupted
  | insufficientDiskSpace
  | engineFailure
  | cancelled
  | unexpectedFailure
deriving DecidableEq

/-- Modelled from the spec: the §7 / §9 translation of the raised exception
(class plus message, `src/core/exceptions.py` not being under `src/`) into
the spec taxonomy: `FileNotFoundError` is `InputMissing`; a
`CorruptedFileError` carrying the empty-input message is `InputEmpty` and any
other is `InputCorrupted`; a `ConversionError` from the disk guard is
`InsufficientDiskSpace` and any other is `EngineFailure`. -/
def errorKindOf (e : PyExc) : ErrorKind :=
  match e.cls with
  | ExcClass.ffmpegNotFound => ErrorKind.toolNotFound
  | ExcClass.fileNotFound => ErrorKind.inputMissing
  | ExcClass.corruptedFile =>
    if e.msg = emptyInputMsg then ErrorKind.inputEmpty else ErrorKind.inputCorrupted
  | ExcClass.conversionErr =>
    if e.msg.startsWith "Espacio en disco insuficiente" then
      ErrorKind.insufficientDiskSpace
    else ErrorKind.engineFailure
  | ExcClass.attrError => ErrorKind.unexpectedFailure

/-! ## Spec-side definitions for the progress parser -/

/-- Well-formedness of a captured time marker, written from the spec shape
`HH:MM:SS.ffff`: exactly two colons, the seconds field holding exactly one
dot, and all four fields nonempty digit strings. -/
def isTimeMarker (cs : List Char) : Bool :=
  match splitOnChar ':' cs with
  | [hh, mm, ss] =>
    match splitOnChar '.' ss with
    | [s0, f] =>
      !hh.isEmpty && hh.all Char.isDigit && !mm.isEmpty && mm.all Char.isDigit &&
        !s0.isEmpty && s0.all Char.isDigit && !f.isEmpty && f.all Char.isDigit
    | _ => false
  | _ => false

/-- Modelled from the spec (§4.5): the elapsed seconds of a marker,
`hours×3600 + minutes×60 + seconds` with the fractional part of the seconds
field included. -/
def markerSeconds (cs : List Char) : ℚ :=
  match splitOnChar ':' cs with
  | [hh, mm, ss] =>
    match splitOnChar '.' ss with
    | [s0, f] =>
      (digitsToNat hh : ℚ) * 3600 + (digitsToNat mm : ℚ) * 60 + (digitsToNat s0 : ℚ)
        + (digitsToNat f : ℚ) / 10 ^ f.length
    | _ => 0
  | _ => 0

/-- Modelled from the spec (§4.5): `percent = floor(elapsed / total × 100)`,
clamped to `[0, 100]`. -/
def spec_percent (elapsed total : ℚ) : ℤ :=
  max 0 (min 100 ⌊elapsed / total * 100⌋)

/-- The marker values (elapsed seconds) the parser extracts from a sequence
of lines, in order, skipping lines without a marker. -/
def markerValsOf (lines : List String) : List ℚ :=
  lines.filterMap fun l =>
    (searchTimeMarker l.data).map fun cap => parse_duration (String.mk cap)

/-! ## ConversionThread (converter.py)

The worker is modelled as a pure trace function. The cooperative-cancellation
flag `_is_running` only ever transitions from `True` to `False` (set in
`__init__`, cleared by `stop`); a run of the thread reads it at the top of
each streaming-loop iteration and then at lines 69, 72 and 75. We index those
reads `0, 1, 2, …` in program order and let `cancelAfter = some k` mean the
flag transition lands between read `k - 1` and read `k` (so reads `< k` see
`True`); `none` means cancel is never requested. This captures every
interleaving of `stop` with `run`. -/

/-- The value the monotone `_is_running` flag yields at its `readIdx`-th read,
given the read index from which the flag is `False`. -/
def flagVal (cancelAfter : Option ℕ) (readIdx : ℕ) : Bool :=
  match cancelAfter with
  | none => true
  | some k => decide (readIdx < k)

/-- A signal emitted by the worker: `progress_updated` or `finished_signal`. -/
inductive Event where
  | progress (p : ℤ)
  | outcome (ok : Bool) (msg : String)
deriving DecidableEq

/-- Whether an event is a terminal `finished_signal` emission. -/
def isOutcome : Event → Bool
  | Event.outcome _ _ => true
  | Event.progress _ => false

/-- The progress percentages of a trace, in emission order. -/
def progressList (evs : List Event) : List ℤ :=
  evs.filterMap fun e =>
    match e with
    | Event.progress p => some p
    | Event.outcome _ _ => none

/-- Events one loop iteration emits for one stderr line (converter.py lines
63-66): only when the total duration is positive is `parse_progress` called,
and only a non-`None` result is emitted. -/
def lineEvents (total_duration : ℚ) (line : String) : List Event :=
  if 0 < total_duration then
    match parse_progress line total_duration with
    | some p => [Event.progress p]
    | none => []
  else []

/-- The streaming loop (converter.py lines 59-66) over the list of lines the
stderr stream yields before EOF, threaded with the flag-read index; returns
the emitted events and the next read index. The `poll()` conjunct is `None`
for as long as output flows (a process that exits mid-stream simply yields a
shorter line list), so loop exit is by a cleared flag or by `readline`
returning the empty string. -/
def loopRun (cancelAfter : Option ℕ) (total_duration : ℚ) :
    List String → ℕ → List Event × ℕ
  | lines, r =>
    if flagVal cancelAfter r then
      match lines with
      | [] => ([], r + 1)
      | l :: rest =>
        let next := loopRun cancelAfter total_duration rest (r + 1)
        (lineEvents total_duration l ++ next.1, next.2)
    else ([], r + 1)

/-- Everything one execution of `ConversionThread.run` observes. -/
structure JobEnv where
  input_file : String
  output_file : String
  mode : String
  quality_preset : String
  /-- whether `check_ffmpeg_availability` finds both tools -/
  ffmpegAvailable : Bool
  /-- filesystem and probe state of the input file -/
  input : InputEnv
  /-- filesystem state seen by the disk guard -/
  disk : DiskEnv
  /-- the `get_video_duration` result (0 on any probe failure) -/
  total_duration : ℚ
  /-- the stderr lines `readline` yields before returning `""` -/
  stderrLines : List String
  /-- the process exit status -/
  returncode : ℤ
  /-- placement of the cancel request among the flag reads (see above) -/
  cancelAfter : Option ℕ

/-- `ConversionThread.run` (converter.py lines 24-82): the emitted events in
order, paired with whether the external engine process was spawned. Preflight
exceptions are caught at line 80 and reported as a failure outcome carrying
`str(e)`; after the loop the success / engine-failure / cancelled outcome is
chosen by the flag reads at lines 72 and 75 and the exit code. The
`ConversionError` raised at line 76 is caught by the same `except` and
reported with its message. -/
def runEvents (env : JobEnv) : List Event × Bool :=
  match check_ffmpeg_availability env.ffmpegAvailable with
  | Except.error e => ([Event.outcome false e.msg], false)
  | Except.ok _ =>
  match validate_input_file env.input with
  | Except.error e => ([Event.outcome false e.msg], false)
  | Except.ok _ =>
  match check_disk_space env.disk (env.input.size * 2) with
  | Except.error e => ([Event.outcome false e.msg], false)
  | Except.ok _ =>
    let looped := loopRun env.cancelAfter env.total_duration env.stderrLines 0
    if flagVal env.cancelAfter (looped.2 + 1) && env.returncode == 0 then
      (looped.1 ++ [Event.progress 100,
        Event.outcome true ("Proceso completado!\n" ++ env.output_file)], true)
    else if flagVal env.cancelAfter (looped.2 + 2) then
      (looped.1 ++ [Event.outcome false
        ("Error en FFmpeg. Código: " ++ toString env.returncode)], true)
    else
      (looped.1 ++ [Event.outcome false "Conversión cancelada por el usuario"], true)

/-! ## ConversionThread.stop -/

/-- Process state at the moment `stop` runs. -/
structure StopEnv where
  /-- `poll() is None` at the check on line 87 -/
  procAlive : Bool
  /-- whether the process exits within the 5-second grace wait -/
  exitsWithin5 : Bool

/-- The process-control calls `stop` can make, in order. -/
inductive StopAct where
  | terminate
  | waitGrace5
  | kill
  | waitNoTimeout
deriving DecidableEq

/-- The calls `stop` (converter.py lines 84-96) issues: nothing when the
process already exited; otherwise `terminate()` then `wait(timeout=5)`, and
only when that wait times out `kill()` followed by an unbounded `wait()`. -/
def stopActions (env : StopEnv) : List StopAct :=
  if env.procAlive then
    if env.exitsWithin5 then [StopAct.terminate, StopAct.waitGrace5]
    else [StopAct.terminate, StopAct.waitGrace5, StopAct.kill, StopAct.waitNoTimeout]
  else []

/-- `ConversionThread.stop`: first clears `_is_running` (the returned flag
value), then escalates on the live process. -/
def stop (env : StopEnv) : Bool × List StopAct :=
  (false, stopActions env)

/-! ## Concrete environments used in counterexamples and witnesses -/

/-- The four registered quality tiers. -/
def knownTiers : List String := ["alta_calidad", "balanceado", "compresion", "extrema"]

/-- The registered container extensions of `codec_configs`. -/
def knownExts : List String := [".mp4", ".webm", ".mov", ".mkv", ".avi"]

/-- A job whose engine emits two time markers out of order (10 s, then 5 s,
against a 100 s total) and then exits with code 0. -/
def outOfOrderEnv : JobEnv where
  input_file := "in.mp4"
  output_file := "out.mp4"
  mode := "compress"
  quality_preset := "balanceado"
  ffmpegAvailable := true
  input := ⟨"in.mp4", true, 1, ProbeOutcome.ok "video"⟩
  disk := ⟨false, 0, none⟩
  total_duration := 100
  stderrLines := ["time=00:00:10.0 x", "time=00:00:05.0 x"]
  returncode := 0
  cancelAfter := none

/-- A job whose engine emits no diagnostic lines and exits cleanly. -/
def quietEnv : JobEnv where
  input_file := "in.mp4"
  output_file := "out.mp4"
  mode := "compress"
  quality_preset := "balanceado"
  ffmpegAvailable := true
  input := ⟨"in.mp4", true, 1, ProbeOutcome.ok "video"⟩
  disk := ⟨false, 0, none⟩
  total_duration := 100
  stderrLines := []
  returncode := 0
  cancelAfter := none

/-- A job cancelled before its first flag read; the process is then killed
and exits with the termination status -15. -/
def cancelEnv : JobEnv where
  input_file := "in.mp4"
  output_file := "out.mp4"
  mode := "compress"
  quality_preset := "balanceado"
  ffmpegAvailable := true
  input := ⟨"in.mp4", true, 1, ProbeOutcome.ok "video"⟩
  disk := ⟨false, 0, none⟩
  total_duration := 100
  stderrLines := ["time=00:00:10.0 x"]
  returncode := -15
  cancelAfter := some 0

/-! ## Helper lemmas -/

theorem get_quality_settings_cases (q : String) :
    get_quality_settings q = ⟨"18", "slow", "192k"⟩ ∨
    get_quality_settings q = ⟨"23", "medium", "128k"⟩ ∨
    get_quality_settings q = ⟨"28", "fast", "96k"⟩ ∨
    get_quality_settings q = ⟨"32", "veryfast", "64k"⟩ := by
  unfold get_quality_settings
  split_ifs <;> simp

theorem quality_preset_nonempty (q : String) :
    (get_quality_settings q).preset ≠ "" := by
  rcases get_quality_settings_cases q with h | h | h | h <;> rw [h] <;> decide

theorem quality_crf_val (q : String) :
    (get_quality_settings q).crf = "18" ∨ (get_quality_settings q).crf = "23" ∨
    (get_quality_settings q).crf = "28" ∨ (get_quality_settings q).crf = "32" := by
  rcases get_quality_settings_cases q with h | h | h | h <;> rw [h] <;> simp

theorem quality_bitrate_val (q : String) :
    (get_quality_settings q).audio_bitrate = "192k" ∨
    (get_quality_settings q).audio_bitrate = "128k" ∨
    (get_quality_settings q).audio_bitrate = "96k" ∨
    (get_quality_settings q).audio_bitrate = "64k" := by
  rcases get_quality_settings_cases q with h | h | h | h <;> rw [h] <;> simp

theorem quality_speed_val (q : String) :
    (get_quality_settings q).preset = "slow" ∨
    (get_quality_settings q).preset = "medium" ∨
    (get_quality_settings q).preset = "fast" ∨
    (get_quality_settings q).preset = "veryfast" := by
  rcases get_quality_settings_cases q with h | h | h | h <;> rw [h] <;> simp

theorem codec_vcodec_val (e : String) :
    (codec_lookup e).vcodec = "libx264" ∨ (codec_lookup e).vcodec = "libvpx-vp9" ∨
    (codec_lookup e).vcodec = "mpeg4" := by
  unfold codec_lookup
  split_ifs <;> simp

theorem codec_acodec_val (e : String) :
    (codec_lookup e).acodec = "aac" ∨ (codec_lookup e).acodec = "libopus" ∨
    (codec_lookup e).acodec = "mp3" := by
  unfold codec_lookup
  split_ifs <;> simp

/-! ## C5: Convert mode -/

/-- C5: In Convert mode, for every input path, output path and quality tier,
the emitted command sets both the video and audio codec to passthrough
(`copy`), contains no quality-factor (`-crf`) and no quality-scale
(`-qscale:v`) argument, is identical for all quality tiers, and terminates in
the explicit output-overwrite flag `-y`. (The two non-membership conjuncts
assume the quoted paths are not themselves literally those flag strings.) -/
theorem convert_mode_command (input_file output_file q : String)
    (hin : shlex_quote input_file ∉ (["-crf", "-qscale:v"] : List String))
    (hout : shlex_quote output_file ∉ (["-crf", "-qscale:v"] : List String)) :
    get_ffmpeg_command input_file output_file "convert" q
      = ["ffmpeg", "-i", shlex_quote input_file, "-c:v", "copy", "-c:a", "copy",
          shlex_quote output_file, "-y"]
    ∧ "-crf" ∉ get_ffmpeg_command input_file output_file "convert" q
    ∧ "-qscale:v" ∉ get_ffmpeg_command input_file output_file "convert" q
    ∧ (∀ q2, get_ffmpeg_command input_file output_file "convert" q
        = get_ffmpeg_command input_file output_file "convert" q2)
    ∧ (get_ffmpeg_command input_file output_file "convert" q).getLast? = some "-y" := by
  simp only [List.mem_cons, List.mem_singleton, not_or] at hin hout
  have hcmd : get_ffmpeg_command input_file output_file "convert" q
      = ["ffmpeg", "-i", shlex_quote input_file, "-c:v", "copy", "-c:a", "copy",
          shlex_quote output_file, "-y"] := by
    simp [get_ffmpeg_command]
  refine ⟨hcmd, ?_, ?_, ?_, ?_⟩
  · rw [hcmd]
    simp only [List.mem_cons, List.mem_singleton]
    intro h
    rcases h with h | h | h | h | h | h | h | h | h <;>
      first
        | exact absurd h.symm hin.1
        | exact absurd h.symm hout.1
        | simp_all
  · rw [hcmd]
    simp only [List.mem_cons, List.mem_singleton]
    intro h
    rcases h with h | h | h | h | h | h | h | h | h <;>
      first
        | exact absurd h.symm hin.2
        | exact absurd h.symm hout.2
        | simp_all
  · intro q2
    simp [get_ffmpeg_command]
  · rw [hcmd]
    rfl

/-- Witness for C5 at concrete paths. -/
theorem convert_mode_command_witness :
    get_ffmpeg_command "in.mkv" "out.mp4" "convert" "balanceado"
      = ["ffmpeg", "-i", shlex_quote "in.mkv", "-c:v", "copy", "-c:a", "copy",
          shlex_quote "out.mp4", "-y"]
    ∧ "-crf" ∉ get_ffmpeg_command "in.mkv" "out.mp4" "convert" "balanceado" := by
  have h := convert_mode_command "in.mkv" "out.mp4" "balanceado"
    (by decide) (by decide)
  exact ⟨h.1, h.2.1⟩

/-! ## C10: unknown quality tier falls back to Balanced -/

/-- C10: every quality tier string that is not one of the four known tiers
yields the Balanced preset, so the command built with an unrecognized tier
equals the command built with `balanceado` for the same input path, output
path and mode (in particular in Compress mode). -/
theorem unknown_tier_defaults (q : String) (hq : q ∉ knownTiers) :
    get_quality_settings q = get_quality_settings "balanceado"
    ∧ ∀ input_file output_file mode,
        get_ffmpeg_command input_file output_file mode q
          = get_ffmpeg_command input_file output_file mode "balanceado" := by
  simp only [knownTiers, List.mem_cons, List.mem_nil_iff, or_false, not_or] at hq
  obtain ⟨h1, h2, h3, h4⟩ := hq
  have hqs : get_quality_settings q = get_quality_settings "balanceado" := by
    unfold get_quality_settings
    rw [if_neg h1, if_neg h2, if_neg h3, if_neg h4]
    simp
  refine ⟨hqs, fun input_file output_file mode => ?_⟩
  unfold get_ffmpeg_command
  rw [hqs]

/-- Witness for C10 at a concrete unrecognized tier. -/
theorem unknown_tier_defaults_witness :
    get_quality_settings "ultra" = get_quality_settings "balanceado"
    ∧ get_ffmpeg_command "a.avi" "b.mkv" "compress" "ultra"
        = get_ffmpeg_command "a.avi" "b.mkv" "compress" "balanceado" := by
  have h := unknown_tier_defaults "ultra" (by decide)
  exact ⟨h.1, h.2 "a.avi" "b.mkv" "compress"⟩

/-! ## C1: the disk-space guard -/

/-- C1 (code bug): the claim says a job whose output volume has less free
space than 1.1 times the requirement gets `InsufficientDiskSpace` before any
engine process is spawned. In the code the guard cannot report at all: its
`ConversionError` is raised inside the same `try` whose
`except Exception: pass` swallows every exception (and the free-space call,
`os.path.getfree`, does not even exist in CPython). First conjunct: the guard
returns normally on *every* input. The remaining conjuncts evaluate the
failing input — output absent, free space reported as 0 bytes, requirement
209715200 bytes (a 100 MiB input, times two) — where the `try` body does
raise the insufficiency error, yet `check_disk_space` still succeeds. The
other half of the claim (an undeterminable free space must not block the
job) does hold, as an instance of the first conjunct. -/
theorem disk_guard_never_reports :
    (∀ (env : DiskEnv) (required_bytes : ℕ),
      check_disk_space env required_bytes = Except.ok ())
    ∧ check_disk_space_attempt ⟨false, 0, some 0⟩ 209715200
        = Except.error ⟨ExcClass.conversionErr,
            "Espacio en disco insuficiente. Se requieren 200MB"⟩
    ∧ check_disk_space ⟨false, 0, some 0⟩ 209715200 = Except.ok () := by
  have hall : ∀ (env : DiskEnv) (required_bytes : ℕ),
      check_disk_space env required_bytes = Except.ok () := by
    intro env required_bytes
    unfold check_disk_space
    cases check_disk_space_attempt env required_bytes <;> rfl
  refine ⟨hall, ?_, hall _ _⟩
  unfold check_disk_space_attempt
  have hlt : ((0 : ℕ) : ℚ) < ((209715200 : ℤ) : ℚ) * (11 / 10) := by norm_num
  simp only [if_neg (Bool.false_ne_true)]
  norm_num [hlt]
  decide

/-! ## C2: empty input file -/

/-- C2: an input file that exists with size zero fails preflight validation
with the distinct empty-input error — `CorruptedFileError` carrying the
dedicated empty-file message, which the spec taxonomy classifies as
`InputEmpty`, distinct from `InputMissing` and from `InputCorrupted` — and
`run` never spawns the engine process for such a job. -/
theorem empty_input_validation :
    (∀ env : InputEnv, env.present = true → env.size = 0 →
      validate_input_file env
        = Except.error ⟨ExcClass.corruptedFile, emptyInputMsg⟩)
    ∧ errorKindOf ⟨ExcClass.corruptedFile, emptyInputMsg⟩ = ErrorKind.inputEmpty
    ∧ ErrorKind.inputEmpty ≠ ErrorKind.inputMissing
    ∧ ErrorKind.inputEmpty ≠ ErrorKind.inputCorrupted
    ∧ (∀ env : JobEnv, env.input.present = true → env.input.size = 0 →
        (runEvents env).2 = false) := by
  have hval : ∀ env : InputEnv, env.present = true → env.size = 0 →
      validate_input_file env
        = Except.error ⟨ExcClass.corruptedFile, emptyInputMsg⟩ := by
    intro env hp hs
    unfold validate_input_file
    rw [hp, hs]
    rfl
  refine ⟨hval, by decide, by decide, by decide, ?_⟩
  intro env hp hs
  unfold runEvents
  cases hav : env.ffmpegAvailable with
  | false => rfl
  | true =>
    rw [hval env.input hp hs]
    rfl

/-- Witness for C2: a concrete existing, zero-byte input. -/
theorem empty_input_validation_witness :
    validate_input_file ⟨"clip.mp4", true, 0, ProbeOutcome.ok "video"⟩
        = Except.error ⟨ExcClass.corruptedFile, emptyInputMsg⟩
    ∧ (runEvents ⟨"clip.mp4", "out.mp4", "compress", "balanceado", true,
        ⟨"clip.mp4", true, 0, ProbeOutcome.ok "video"⟩,
        ⟨false, 0, none⟩, 0, [], 0, none⟩).2 = false := by
  exact ⟨empty_input_validation.1 _ rfl rfl,
    empty_input_validation.2.2.2.2 _ rfl rfl⟩

/-! ## C4: Compress mode -/

theorem codec_lookup_cases (e : String) :
    codec_lookup e = ⟨"libx264", "aac", none⟩ ∨
    codec_lookup e = ⟨"libvpx-vp9", "libopus", none⟩ ∨
    codec_lookup e = ⟨"mpeg4", "mp3", some "5"⟩ := by
  unfold codec_lookup
  split_ifs <;> simp

theorem codec_lookup_qscale_of_ne (e : String) (h : e ≠ ".avi") :
    (codec_lookup e).qscale = none := by
  unfold codec_lookup
  split_ifs <;> simp_all

theorem compress_cmd_qscale (input_file output_file mode q s : String)
    (hm : mode ≠ "convert")
    (hqs : (codec_lookup (lowerStr (path_suffix output_file))).qscale = some s) :
    get_ffmpeg_command input_file output_file mode q
      = ["ffmpeg", "-i", shlex_quote input_file,
          "-c:v", (codec_lookup (lowerStr (path_suffix output_file))).vcodec,
          "-qscale:v", s,
          "-c:a", (codec_lookup (lowerStr (path_suffix output_file))).acodec,
          "-b:a", (get_quality_settings q).audio_bitrate,
          shlex_quote output_file, "-y"] := by
  simp only [get_ffmpeg_command, if_neg hm, hqs]
  simp

theorem compress_cmd_crf (input_file output_file mode q : String)
    (hm : mode ≠ "convert")
    (hqs : (codec_lookup (lowerStr (path_suffix output_file))).qscale = none) :
    get_ffmpeg_command input_file output_file mode q
      = ["ffmpeg", "-i", shlex_quote input_file,
          "-c:v", (codec_lookup (lowerStr (path_suffix output_file))).vcodec,
          "-crf", (get_quality_settings q).crf,
          "-preset", (get_quality_settings q).preset,
          "-c:a", (codec_lookup (lowerStr (path_suffix output_file))).acodec,
          "-b:a", (get_quality_settings q).audio_bitrate,
          shlex_quote output_file, "-y"] := by
  simp only [get_ffmpeg_command, if_neg hm, hqs,
    if_pos (quality_preset_nonempty q)]
  simp

/-- C4: In Compress mode (any mode other than `convert`), the builder looks
up the lower-cased output extension: an unknown extension selects the MP4
profile; for the legacy qscale container (`.avi`) the command contains
`-qscale:v` and no `-crf`, for every other container the inverse; and the
command carries the profile audio codec followed by the active quality
preset audio bitrate. (The non-membership conjuncts assume the quoted paths
are not themselves literally those flag strings.) -/
theorem compress_mode_command (input_file output_file mode q : String)
    (hm : mode ≠ "convert")
    (hin : shlex_quote input_file ∉ (["-crf", "-qscale:v"] : List String))
    (hout : shlex_quote output_file ∉ (["-crf", "-qscale:v"] : List String)) :
    (lowerStr (path_suffix output_file) ∉ knownExts →
      codec_lookup (lowerStr (path_suffix output_file)) = codec_lookup ".mp4")
    ∧ (lowerStr (path_suffix output_file) = ".avi" →
        "-qscale:v" ∈ get_ffmpeg_command input_file output_file mode q
        ∧ "-crf" ∉ get_ffmpeg_command input_file output_file mode q)
    ∧ (lowerStr (path_suffix output_file) ≠ ".avi" →
        "-crf" ∈ get_ffmpeg_command input_file output_file mode q
        ∧ "-qscale:v" ∉ get_ffmpeg_command input_file output_file mode q)
    ∧ List.IsInfix
        ["-c:a", (codec_lookup (lowerStr (path_suffix output_file))).acodec,
          "-b:a", (get_quality_settings q).audio_bitrate]
        (get_ffmpeg_command input_file output_file mode q) := by
  simp only [List.mem_cons, List.mem_nil_iff, or_false, not_or] at hin hout
  refine ⟨?_, ?_, ?_, ?_⟩
  · intro hun
    simp only [knownExts, List.mem_cons, List.mem_nil_iff, or_false, not_or] at hun
    obtain ⟨e1, e2, e3, e4, e5⟩ := hun
    unfold codec_lookup
    rw [if_neg e1, if_neg e2, if_neg e3, if_neg e4, if_neg e5]
    simp
  · intro havi
    have hcfg : codec_lookup (lowerStr (path_suffix output_file))
        = ⟨"mpeg4", "mp3", some "5"⟩ := by rw [havi]; rfl
    have hcmd := compress_cmd_qscale input_file output_file mode q "5" hm
      (by rw [hcfg])
    rw [hcmd, hcfg]
    constructor
    · simp
    · simp only [List.mem_cons, List.mem_nil_iff, or_false, not_or]
      refine ⟨by decide, by decide, fun h => hin.1 h.symm, by decide, by decide,
        by decide, by decide, by decide, by decide, by decide, ?_,
        fun h => hout.1 h.symm, by decide⟩
      rcases quality_bitrate_val q with hb | hb | hb | hb <;> rw [hb] <;> decide
  · intro hne
    have hqs := codec_lookup_qscale_of_ne _ hne
    have hcmd := compress_cmd_crf input_file output_file mode q hm hqs
    rw [hcmd]
    constructor
    · simp
    · simp only [List.mem_cons, List.mem_nil_iff, or_false, not_or]
      refine ⟨by decide, by decide, fun h => hin.2 h.symm, by decide, ?_, by decide,
        ?_, by decide, ?_, by decide, ?_, by decide, ?_,
        fun h => hout.2 h.symm, by decide⟩
      · rcases codec_vcodec_val (lowerStr (path_suffix output_file)) with h | h | h <;>
          rw [h] <;> decide
      · rcases quality_crf_val q with h | h | h | h <;> rw [h] <;> decide
      · rcases quality_speed_val q with h | h | h | h <;> rw [h] <;> decide
      · rcases codec_acodec_val (lowerStr (path_suffix output_file)) with h | h | h <;>
          rw [h] <;> decide
      · rcases quality_bitrate_val q with h | h | h | h <;> rw [h] <;> decide
  · cases hqs : (codec_lookup (lowerStr (path_suffix output_file))).qscale with
    | none =>
      refine ⟨["ffmpeg", "-i", shlex_quote input_file,
          "-c:v", (codec_lookup (lowerStr (path_suffix output_file))).vcodec,
          "-crf", (get_quality_settings q).crf,
          "-preset", (get_quality_settings q).preset],
        [shlex_quote output_file, "-y"], ?_⟩
      rw [compress_cmd_crf input_file output_file mode q hm hqs]
      simp
    | some s =>
      refine ⟨["ffmpeg", "-i", shlex_quote input_file,
          "-c:v", (codec_lookup (lowerStr (path_suffix output_file))).vcodec,
          "-qscale:v", s],
        [shlex_quote output_file, "-y"], ?_⟩
      rw [compress_cmd_qscale input_file output_file mode q s hm hqs]
      simp

/-- Witness for C4 at concrete paths: an upper-cased known extension and the
qscale container. -/
theorem compress_mode_command_witness :
    ("-qscale:v" ∈ get_ffmpeg_command "in.mp4" "/tmp/OUT.AVI" "compress" "balanceado"
      ∧ "-crf" ∉ get_ffmpeg_command "in.mp4" "/tmp/OUT.AVI" "compress" "balanceado")
    ∧ codec_lookup (lowerStr (path_suffix "/tmp/movie.xyz")) = codec_lookup ".mp4" := by
  constructor
  · exact (compress_mode_command "in.mp4" "/tmp/OUT.AVI" "compress" "balanceado"
      (by decide) (by decide) (by decide)).2.1 (by decide)
  · exact (compress_mode_command "in.mp4" "/tmp/movie.xyz" "compress" "balanceado"
      (by decide) (by decide) (by decide)).1 (by decide)

/-! ## Progress parser lemmas (C6, C7) -/

theorem takeDigits_digits (cs : List Char) :
    (takeDigits cs).1.all Char.isDigit = true := by
  induction cs with
  | nil => rfl
  | cons c cs ih =>
    unfold takeDigits
    by_cases h : c.isDigit = true
    · simp [h, ih]
    · simp [h]

theorem ne_nil_of_not_isEmpty (l : List Char) (h : ¬ l.isEmpty = true) : l ≠ [] := by
  cases l with
  | nil => exact absurd rfl h
  | cons a as => exact List.cons_ne_nil a as

theorem all_digits_not_mem (cs : List Char) (hd : cs.all Char.isDigit = true)
    (c : Char) (hc : ¬ c.isDigit = true) : c ∉ cs := by
  intro hm
  simp only [List.all_eq_true] at hd
  exact hc (hd c hm)

theorem splitOnChar_not_mem (sep : Char) (cs : List Char) (h : sep ∉ cs) :
    splitOnChar sep cs = [cs] := by
  induction cs with
  | nil => rfl
  | cons c cs ih =>
    simp only [List.mem_cons, not_or] at h
    rw [splitOnChar, if_neg (fun hh => h.1 hh.symm), ih h.2]

theorem splitOnChar_append (sep : Char) (xs ys : List Char) (h : sep ∉ xs) :
    splitOnChar sep (xs ++ sep :: ys) = xs :: splitOnChar sep ys := by
  induction xs with
  | nil => rw [List.nil_append, splitOnChar, if_pos rfl]
  | cons c cs ih =>
    simp only [List.mem_cons, not_or] at h
    rw [List.cons_append, splitOnChar, if_neg (fun hh => h.1 hh.symm), ih h.2]

theorem matchCapture_shape (cs cap : List Char) (h : matchCapture cs = some cap) :
    ∃ d1 d2 d3 d4 : List Char,
      (d1 ≠ [] ∧ d1.all Char.isDigit = true) ∧
      (d2 ≠ [] ∧ d2.all Char.isDigit = true) ∧
      (d3 ≠ [] ∧ d3.all Char.isDigit = true) ∧
      (d4 ≠ [] ∧ d4.all Char.isDigit = true) ∧
      cap = d1 ++ ':' :: (d2 ++ ':' :: (d3 ++ '.' :: d4)) := by
  simp only [matchCapture] at h
  by_cases hne1 : (takeDigits cs).1.isEmpty = true
  · rw [if_pos hne1] at h
    exact Option.noConfusion h
  rw [if_neg hne1] at h
  rcases hq1 : (takeDigits cs).2 with _ | ⟨c1, r2⟩ <;> rw [hq1] at h
  · exact Option.noConfusion h
  dsimp only at h
  by_cases hc1 : c1 = ':'
  swap
  · rw [if_neg hc1] at h
    exact Option.noConfusion h
  rw [if_pos hc1] at h
  by_cases hne2 : (takeDigits r2).1.isEmpty = true
  · rw [if_pos hne2] at h
    exact Option.noConfusion h
  rw [if_neg hne2] at h
  rcases hq2 : (takeDigits r2).2 with _ | ⟨c2, r4⟩ <;> rw [hq2] at h
  · exact Option.noConfusion h
  dsimp only at h
  by_cases hc2 : c2 = ':'
  swap
  · rw [if_neg hc2] at h
    exact Option.noConfusion h
  rw [if_pos hc2] at h
  by_cases hne3 : (takeDigits r4).1.isEmpty = true
  · rw [if_pos hne3] at h
    exact Option.noConfusion h
  rw [if_neg hne3] at h
  rcases hq3 : (takeDigits r4).2 with _ | ⟨c3, r6⟩ <;> rw [hq3] at h
  · exact Option.noConfusion h
  dsimp only at h
  by_cases hc3 : c3 = '.'
  swap
  · rw [if_neg hc3] at h
    exact Option.noConfusion h
  rw [if_pos hc3] at h
  by_cases hne4 : (takeDigits r6).1.isEmpty = true
  · rw [if_pos hne4] at h
    exact Option.noConfusion h
  rw [if_neg hne4] at h
  exact ⟨(takeDigits cs).1, (takeDigits r2).1, (takeDigits r4).1, (takeDigits r6).1,
    ⟨ne_nil_of_not_isEmpty _ hne1, takeDigits_digits cs⟩,
    ⟨ne_nil_of_not_isEmpty _ hne2, takeDigits_digits r2⟩,
    ⟨ne_nil_of_not_isEmpty _ hne3, takeDigits_digits r4⟩,
    ⟨ne_nil_of_not_isEmpty _ hne4, takeDigits_digits r6⟩,
    (Option.some.inj h).symm⟩

theorem matchAnchorAt_capture (cs cap : List Char) (h : matchAnchorAt cs = some cap) :
    ∃ rest, matchCapture rest = some cap := by
  unfold matchAnchorAt at h
  split at h
  · rename_i c1 c2 c3 c4 c5 rest
    split at h
    · exact ⟨rest, h⟩
    · exact Option.noConfusion h
  · exact Option.noConfusion h

theorem searchTimeMarker_capture (cs cap : List Char)
    (h : searchTimeMarker cs = some cap) :
    ∃ rest, matchCapture rest = some cap := by
  induction cs with
  | nil => exact Option.noConfusion h
  | cons c cs ih =>
    rw [searchTimeMarker] at h
    split at h
    · rename_i cap2 heq
      obtain ⟨rest, hr⟩ := matchAnchorAt_capture _ _ heq
      exact ⟨rest, by rw [hr, Option.some.inj h]⟩
    · exact ih h

theorem searchTimeMarker_shape (cs cap : List Char)
    (h : searchTimeMarker cs = some cap) :
    ∃ d1 d2 d3 d4 : List Char,
      (d1 ≠ [] ∧ d1.all Char.isDigit = true) ∧
      (d2 ≠ [] ∧ d2.all Char.isDigit = true) ∧
      (d3 ≠ [] ∧ d3.all Char.isDigit = true) ∧
      (d4 ≠ [] ∧ d4.all Char.isDigit = true) ∧
      cap = d1 ++ ':' :: (d2 ++ ':' :: (d3 ++ '.' :: d4)) := by
  obtain ⟨rest, hr⟩ := searchTimeMarker_capture cs cap h
  exact matchCapture_shape rest cap hr

theorem marker_split_colon (d1 d2 d3 d4 : List Char)
    (h1 : d1.all Char.isDigit = true) (h2 : d2.all Char.isDigit = true)
    (h3 : d3.all Char.isDigit = true) (h4 : d4.all Char.isDigit = true) :
    splitOnChar ':' (d1 ++ ':' :: (d2 ++ ':' :: (d3 ++ '.' :: d4)))
      = [d1, d2, d3 ++ '.' :: d4] := by
  have n1 : ':' ∉ d1 := all_digits_not_mem d1 h1 ':' (by decide)
  have n2 : ':' ∉ d2 := all_digits_not_mem d2 h2 ':' (by decide)
  have n3 : ':' ∉ d3 ++ '.' :: d4 := by
    intro hm
    rcases List.mem_append.mp hm with hm | hm
    · exact all_digits_not_mem d3 h3 ':' (by decide) hm
    · rcases List.mem_cons.mp hm with hm | hm
      · exact absurd hm (by decide)
      · exact all_digits_not_mem d4 h4 ':' (by decide) hm
  rw [splitOnChar_append ':' d1 _ n1, splitOnChar_append ':' d2 _ n2,
    splitOnChar_not_mem ':' _ n3]

theorem marker_split_dot (d3 d4 : List Char)
    (h3 : d3.all Char.isDigit = true) (h4 : d4.all Char.isDigit = true) :
    splitOnChar '.' (d3 ++ '.' :: d4) = [d3, d4] := by
  have n3 : '.' ∉ d3 := all_digits_not_mem d3 h3 '.' (by decide)
  have n4 : '.' ∉ d4 := all_digits_not_mem d4 h4 '.' (by decide)
  rw [splitOnChar_append '.' d3 d4 n3, splitOnChar_not_mem '.' d4 n4]

theorem parseFloatDigits_of (cs : List Char) (hne : cs ≠ [])
    (hd : cs.all Char.isDigit = true) :
    parseFloatDigits cs = some (digitsToNat cs) := by
  have hf : cs.isEmpty = false := by
    cases cs with
    | nil => exact absurd rfl hne
    | cons a as => rfl
  simp [parseFloatDigits, hf, hd]

theorem fracFloat_of (cs : List Char) (hd : cs.all Char.isDigit = true) :
    fracFloat cs = some ((digitsToNat cs : ℚ) / 10 ^ cs.length) := by
  simp [fracFloat, hd]

theorem parse_duration_marker (d1 d2 d3 d4 : List Char)
    (n1 : d1 ≠ []) (h1 : d1.all Char.isDigit = true)
    (n2 : d2 ≠ []) (h2 : d2.all Char.isDigit = true)
    (n3 : d3 ≠ []) (h3 : d3.all Char.isDigit = true)
    (h4 : d4.all Char.isDigit = true) :
    parse_duration (String.mk (d1 ++ ':' :: (d2 ++ ':' :: (d3 ++ '.' :: d4))))
      = (digitsToNat d1 : ℚ) * 3600 + (digitsToNat d2 : ℚ) * 60
        + (digitsToNat d3 : ℚ) + (digitsToNat d4 : ℚ) / 10 ^ d4.length := by
  unfold parse_duration
  rw [show (String.mk (d1 ++ ':' :: (d2 ++ ':' :: (d3 ++ '.' :: d4)))).data
      = d1 ++ ':' :: (d2 ++ ':' :: (d3 ++ '.' :: d4)) from rfl]
  rw [marker_split_colon d1 d2 d3 d4 h1 h2 h3 h4]
  dsimp only
  rw [marker_split_dot d3 d4 h3 h4]
  dsimp only
  rw [parseFloatDigits_of d3 n3 h3]
  dsimp only
  rw [fracFloat_of d4 h4]
  dsimp only
  rw [parseFloatDigits_of d1 n1 h1, parseFloatDigits_of d2 n2 h2]

theorem markerSeconds_marker (d1 d2 d3 d4 : List Char)
    (h1 : d1.all Char.isDigit = true) (h2 : d2.all Char.isDigit = true)
    (h3 : d3.all Char.isDigit = true) (h4 : d4.all Char.isDigit = true) :
    markerSeconds (d1 ++ ':' :: (d2 ++ ':' :: (d3 ++ '.' :: d4)))
      = (digitsToNat d1 : ℚ) * 3600 + (digitsToNat d2 : ℚ) * 60
        + (digitsToNat d3 : ℚ) + (digitsToNat d4 : ℚ) / 10 ^ d4.length := by
  unfold markerSeconds
  rw [marker_split_colon d1 d2 d3 d4 h1 h2 h3 h4]
  dsimp only
  rw [marker_split_dot d3 d4 h3 h4]

theorem isTimeMarker_marker (d1 d2 d3 d4 : List Char)
    (n1 : d1 ≠ []) (h1 : d1.all Char.isDigit = true)
    (n2 : d2 ≠ []) (h2 : d2.all Char.isDigit = true)
    (n3 : d3 ≠ []) (h3 : d3.all Char.isDigit = true)
    (n4 : d4 ≠ []) (h4 : d4.all Char.isDigit = true) :
    isTimeMarker (d1 ++ ':' :: (d2 ++ ':' :: (d3 ++ '.' :: d4))) = true := by
  unfold isTimeMarker
  rw [marker_split_colon d1 d2 d3 d4 h1 h2 h3 h4]
  dsimp only
  rw [marker_split_dot d3 d4 h3 h4]
  dsimp only
  simp [h1, h2, h3, h4, List.isEmpty_eq_false_iff_exists_mem.mpr, n1, n2, n3, n4,
    List.isEmpty_iff]

theorem pyInt_of_nonneg (q : ℚ) (h : 0 ≤ q) : pyInt q = ⌊q⌋ := if_pos h

/-! ## C6: the progress formula -/

/-- C6: for every diagnostic line in which the marker search finds a capture
and every positive total duration, the capture is a well-formed
`HH:MM:SS.ffff` marker and the parser returns exactly the spec value
`floor(elapsed / total × 100)` clamped to `[0, 100]`; in particular a marker
at exactly half the total duration yields 50. -/
theorem progress_formula (line : String) (total : ℚ) (cap : List Char)
    (ht : 0 < total) (hs : searchTimeMarker line.data = some cap) :
    isTimeMarker cap = true
    ∧ parse_progress line total = some (spec_percent (markerSeconds cap) total)
    ∧ (markerSeconds cap * 2 = total → parse_progress line total = some 50) := by
  obtain ⟨d1, d2, d3, d4, ⟨n1, h1⟩, ⟨n2, h2⟩, ⟨n3, h3⟩, ⟨n4, h4⟩, hcap⟩ :=
    searchTimeMarker_shape _ _ hs
  subst hcap
  have hpd := parse_duration_marker d1 d2 d3 d4 n1 h1 n2 h2 n3 h3 h4
  have hms := markerSeconds_marker d1 d2 d3 d4 h1 h2 h3 h4
  have hpp : parse_progress line total
      = some (min ⌊((digitsToNat d1 : ℚ) * 3600 + (digitsToNat d2 : ℚ) * 60
          + (digitsToNat d3 : ℚ) + (digitsToNat d4 : ℚ) / 10 ^ d4.length)
            / total * 100⌋ 100) := by
    unfold parse_progress
    rw [hs]
    dsimp only
    rw [if_pos ht, hpd, pyInt_of_nonneg _ (by positivity)]
  refine ⟨isTimeMarker_marker d1 d2 d3 d4 n1 h1 n2 h2 n3 h3 n4 h4, ?_, ?_⟩
  · rw [hpp, hms]
    unfold spec_percent
    congr 1
    have hfl : 0 ≤ ⌊((digitsToNat d1 : ℚ) * 3600 + (digitsToNat d2 : ℚ) * 60
        + (digitsToNat d3 : ℚ) + (digitsToNat d4 : ℚ) / 10 ^ d4.length)
          / total * 100⌋ :=
      Int.floor_nonneg.mpr (by positivity)
    omega
  · intro hhalf
    rw [hms] at hhalf
    have hEpos : 0 < (digitsToNat d1 : ℚ) * 3600 + (digitsToNat d2 : ℚ) * 60
        + (digitsToNat d3 : ℚ) + (digitsToNat d4 : ℚ) / 10 ^ d4.length := by
      nlinarith [ht, hhalf]
    have key : ∀ a : ℚ, 0 < a → a / (a * 2) * 100 = 50 := by
      intro a ha
      rw [← div_div, div_self (ne_of_gt ha)]
      norm_num
    have h50 : ((digitsToNat d1 : ℚ) * 3600 + (digitsToNat d2 : ℚ) * 60
        + (digitsToNat d3 : ℚ) + (digitsToNat d4 : ℚ) / 10 ^ d4.length)
          / total * 100 = 50 := by
      rw [← hhalf]
      exact key _ hEpos
    rw [hpp, h50]
    norm_num

/-- Witness for C6: `time=00:00:02.500000` against a 5-second total yields
exactly 50. -/
theorem progress_formula_witness :
    (0 : ℚ) < 5
    ∧ searchTimeMarker ("frame=12 time=00:00:02.500000 bitrate=x" : String).data
        = some ("00:00:02.500000" : String).data
    ∧ markerSeconds ("00:00:02.500000" : String).data * 2 = 5
    ∧ parse_progress "frame=12 time=00:00:02.500000 bitrate=x" 5 = some 50 := by
  have hs : searchTimeMarker ("frame=12 time=00:00:02.500000 bitrate=x" : String).data
      = some ("00:00:02.500000" : String).data := by decide
  have hshape : ("00:00:02.500000" : String).data
      = ("00" : String).data ++ ':' :: (("00" : String).data ++ ':' ::
          (("02" : String).data ++ '.' :: ("500000" : String).data)) := by decide
  have hm : markerSeconds ("00:00:02.500000" : String).data * 2 = 5 := by
    rw [hshape, markerSeconds_marker _ _ _ _ (by decide) (by decide) (by decide)
      (by decide)]
    rw [show digitsToNat ("00" : String).data = 0 from by decide,
      show digitsToNat ("02" : String).data = 2 from by decide,
      show digitsToNat ("500000" : String).data = 500000 from by decide,
      show (("500000" : String).data).length = 6 from by decide]
    norm_num
  exact ⟨by norm_num, hs, hm,
    (progress_formula "frame=12 time=00:00:02.500000 bitrate=x" 5
      ("00:00:02.500000" : String).data (by norm_num) hs).2.2 hm⟩

/-! ## C7: unknown duration, missing or malformed markers -/

/-- C7: with an unknown (zero) total duration `parse_progress` yields no
event for any line, and the supervisor loop emits no progress event for any
line sequence, cancellation placement and read index; for every line and
every duration, a line on which the marker search fails (no marker, or only
malformed markers) produces no event. The parser is a total function — the
never-raises half of the claim is the existence of these equations. -/
theorem unknown_duration_no_progress :
    (∀ line : String, parse_progress line 0 = none)
    ∧ (∀ (line : String) (total : ℚ), searchTimeMarker line.data = none →
        parse_progress line total = none)
    ∧ (∀ (cancelAfter : Option ℕ) (lines : List String) (r : ℕ),
        (loopRun cancelAfter 0 lines r).1 = []) := by
  have hline : ∀ line : String, parse_progress line 0 = none := by
    intro line
    unfold parse_progress
    split
    · rw [if_neg (lt_irrefl 0)]
    · rfl
  have hloop : ∀ (ca : Option ℕ) (lines : List String) (r : ℕ),
      (loopRun ca 0 lines r).1 = [] := by
    intro ca lines
    induction lines with
    | nil =>
      intro r
      unfold loopRun
      split <;> rfl
    | cons l rest ih =>
      intro r
      unfold loopRun
      split
      · dsimp only
        rw [ih (r + 1)]
        simp [lineEvents]
      · rfl
  refine ⟨hline, ?_, hloop⟩
  intro line total h
  unfold parse_progress
  rw [h]

/-- Witness for C7: a marker-bearing line at duration 0, a marker-free line
at duration 7, and a loop over a marker-bearing line at duration 0. -/
theorem unknown_duration_no_progress_witness :
    parse_progress "time=00:00:01.0 x" 0 = none
    ∧ parse_progress "hello world" 7 = none
    ∧ (loopRun (some 3) 0 ["time=00:00:01.0 x"] 0).1 = [] :=
  ⟨unknown_duration_no_progress.1 "time=00:00:01.0 x",
    unknown_duration_no_progress.2.1 "hello world" 7 (by decide),
    unknown_duration_no_progress.2.2 (some 3) ["time=00:00:01.0 x"] 0⟩

/-! ## Supervisor trace lemmas (C3, C8, C9) -/

theorem lineEvents_no_outcome (total : ℚ) (l : String) :
    ∀ e ∈ lineEvents total l, isOutcome e = false := by
  intro e he
  unfold lineEvents at he
  by_cases ht : 0 < total
  · rw [if_pos ht] at he
    cases hp : parse_progress l total <;> rw [hp] at he
    · simp at he
    · simp at he
      subst he
      rfl
  · rw [if_neg ht] at he
    simp at he

theorem loopRun_no_outcome (ca : Option ℕ) (total : ℚ) :
    ∀ (lines : List String) (r : ℕ) (e : Event),
      e ∈ (loopRun ca total lines r).1 → isOutcome e = false := by
  intro lines
  induction lines with
  | nil =>
    intro r e he
    unfold loopRun at he
    split at he <;> simp at he
  | cons l rest ih =>
    intro r e he
    unfold loopRun at he
    split at he
    · dsimp only at he
      rcases List.mem_append.mp he with h | h
      · exact lineEvents_no_outcome total l e h
      · exact ih (r + 1) e h
    · simp at he

/-! ## C9: exactly one terminal outcome, delivered last -/

/-- C9: every execution of the worker delivers exactly one terminal outcome
event and it is the last event of the trace — every earlier event is a
progress event — on every path the model covers: the three preflight
failures (whose exceptions the `except` turns into a failure outcome),
success, engine failure, and cancellation. -/
theorem single_outcome_last (env : JobEnv) :
    ∃ es e, (runEvents env).1 = es ++ [e] ∧ isOutcome e = true
      ∧ ∀ x ∈ es, isOutcome x = false := by
  unfold runEvents
  cases hav : check_ffmpeg_availability env.ffmpegAvailable with
  | error pe => exact ⟨[], Event.outcome false pe.msg, rfl, rfl, by simp⟩
  | ok u =>
    cases hv : validate_input_file env.input with
    | error pe => exact ⟨[], Event.outcome false pe.msg, rfl, rfl, by simp⟩
    | ok u2 =>
      cases hd : check_disk_space env.disk (env.input.size * 2) with
      | error pe => exact ⟨[], Event.outcome false pe.msg, rfl, rfl, by simp⟩
      | ok u3 =>
        dsimp only
        split
        · refine ⟨(loopRun env.cancelAfter env.total_duration env.stderrLines 0).1
              ++ [Event.progress 100],
            Event.outcome true ("Proceso completado!\n" ++ env.output_file),
            by simp, rfl, ?_⟩
          intro x hx
          rcases List.mem_append.mp hx with h | h
          · exact loopRun_no_outcome _ _ _ _ x h
          · simp at h
            subst h
            rfl
        · split
          · exact ⟨(loopRun env.cancelAfter env.total_duration env.stderrLines 0).1,
              Event.outcome false
                ("Error en FFmpeg. Código: " ++ toString env.returncode),
              by simp, rfl, fun x hx => loopRun_no_outcome _ _ _ _ x hx⟩
          · exact ⟨(loopRun env.cancelAfter env.total_duration env.stderrLines 0).1,
              Event.outcome false "Conversión cancelada por el usuario",
              by simp, rfl, fun x hx => loopRun_no_outcome _ _ _ _ x hx⟩

/-! ## C8: cancellation -/

theorem loopRun_ret (k : ℕ) (total : ℚ) :
    ∀ (lines : List String) (r : ℕ),
      (loopRun (some k) total lines r).2
        = min (max r k) (r + lines.length) + 1 := by
  intro lines
  induction lines with
  | nil =>
    intro r
    unfold loopRun
    by_cases h : r < k
    · rw [if_pos (by simp [flagVal, h])]
      dsimp only [List.length_nil]
      omega
    · rw [if_neg (by simp [flagVal, h])]
      dsimp only [List.length_nil]
      omega
  | cons l rest ih =>
    intro r
    unfold loopRun
    by_cases h : r < k
    · rw [if_pos (by simp [flagVal, h])]
      dsimp only
      rw [ih (r + 1)]
      simp only [List.length_cons]
      omega
    · rw [if_neg (by simp [flagVal, h])]
      simp only [List.length_cons]
      omega

/-- C8: if a job got as far as spawning the engine and cancel is requested
before the process exits — the flag transition lands no later than the read
after the post-loop `wait()` returns, `k ≤ |lines| + 2` — the terminal
outcome is the cancelled one, never an engine failure, whatever the exit
code; and `stop` clears the running flag, then on a live process sends
`terminate` followed by the 5-second-bounded wait, and only when that times
out `kill` plus an unconditional wait. -/
theorem cancel_behaviour :
    (∀ (env : JobEnv) (k : ℕ), env.cancelAfter = some k →
      k ≤ env.stderrLines.length + 2 → (runEvents env).2 = true →
      ∃ es, (runEvents env).1
          = es ++ [Event.outcome false "Conversión cancelada por el usuario"]
        ∧ ∀ x ∈ es, isOutcome x = false)
    ∧ (∀ senv : StopEnv, (stop senv).1 = false)
    ∧ (∀ senv : StopEnv, senv.procAlive = true →
        (stop senv).2.take 2 = [StopAct.terminate, StopAct.waitGrace5])
    ∧ (∀ senv : StopEnv, senv.procAlive = true → senv.exitsWithin5 = false →
        (stop senv).2 = [StopAct.terminate, StopAct.waitGrace5, StopAct.kill,
          StopAct.waitNoTimeout])
    ∧ (∀ senv : StopEnv, senv.exitsWithin5 = true →
        StopAct.kill ∉ (stop senv).2) := by
  refine ⟨?_, fun senv => rfl, ?_, ?_, ?_⟩
  · intro env k hk hlen hsp
    unfold runEvents at hsp ⊢
    cases hav : check_ffmpeg_availability env.ffmpegAvailable with
    | error pe =>
      rw [hav] at hsp
      exact absurd hsp (by simp)
    | ok u =>
      rw [hav] at hsp
      cases hv : validate_input_file env.input with
      | error pe =>
        rw [hv] at hsp
        exact absurd hsp (by simp)
      | ok u2 =>
        rw [hv] at hsp
        cases hd : check_disk_space env.disk (env.input.size * 2) with
        | error pe =>
          rw [hd] at hsp
          exact absurd hsp (by simp)
        | ok u3 =>
          dsimp only
          rw [hk]
          have h2 := loopRun_ret k env.total_duration env.stderrLines 0
          have hf1 : flagVal (some k)
              ((loopRun (some k) env.total_duration env.stderrLines 0).2 + 1)
                = false := by
            rw [h2]
            simp [flagVal]
            omega
          have hf2 : flagVal (some k)
              ((loopRun (some k) env.total_duration env.stderrLines 0).2 + 2)
                = false := by
            rw [h2]
            simp [flagVal]
            omega
          rw [hf1, hf2]
          simp only [Bool.false_and, if_false, Bool.false_eq_true]
          exact ⟨(loopRun (some k) env.total_duration env.stderrLines 0).1,
            rfl, fun x hx => loopRun_no_outcome _ _ _ _ x hx⟩
  · intro senv hal
    simp [stop, stopActions, hal]
    split <;> rfl
  · intro senv hal hex
    simp [stop, stopActions, hal, hex]
  · intro senv hex
    unfold stop stopActions
    cases hal : senv.procAlive with
    | false => simp
    | true =>
      rw [if_pos rfl, if_pos hex]
      decide

/-- Witness for C8: a job cancelled before its first flag read ends in the
cancelled outcome despite exit status -15, and `stop` on a live,
grace-deaf process runs the full escalation. -/
theorem cancel_behaviour_witness :
    (∃ es, (runEvents cancelEnv).1
        = es ++ [Event.outcome false "Conversión cancelada por el usuario"]
      ∧ ∀ x ∈ es, isOutcome x = false)
    ∧ (stop ⟨true, false⟩).2 = [StopAct.terminate, StopAct.waitGrace5,
        StopAct.kill, StopAct.waitNoTimeout]
    ∧ (stop ⟨true, true⟩).1 = false :=
  ⟨cancel_behaviour.1 cancelEnv 0 rfl (by decide) rfl,
    cancel_behaviour.2.2.2.1 ⟨true, false⟩ rfl rfl,
    cancel_behaviour.2.1 ⟨true, true⟩⟩

/-! ## C3: progress ordering -/

theorem parse_progress_capture (line : String) (total : ℚ) (cap : List Char)
    (hs : searchTimeMarker line.data = some cap) (ht : 0 < total) :
    parse_progress line total
      = some (min ⌊parse_duration (String.mk cap) / total * 100⌋ 100) := by
  have hpd : 0 ≤ parse_duration (String.mk cap) := by
    obtain ⟨d1, d2, d3, d4, ⟨n1, h1⟩, ⟨n2, h2⟩, ⟨n3, h3⟩, ⟨n4, h4⟩, hcap⟩ :=
      searchTimeMarker_shape _ _ hs
    subst hcap
    rw [parse_duration_marker d1 d2 d3 d4 n1 h1 n2 h2 n3 h3 h4]
    positivity
  unfold parse_progress
  rw [hs]
  dsimp only
  rw [if_pos ht,
    pyInt_of_nonneg _ (mul_nonneg (div_nonneg hpd ht.le) (by norm_num))]

theorem parse_progress_ten :
    parse_progress "time=00:00:10.0 x" 100 = some 10 := by
  have hs : searchTimeMarker ("time=00:00:10.0 x" : String).data
      = some ("00:00:10.0" : String).data := by decide
  rw [parse_progress_capture _ 100 _ hs (by norm_num)]
  rw [show String.mk (("00:00:10.0" : String).data) = "00:00:10.0" from by decide]
  rw [show ("00:00:10.0" : String) = String.mk (("00" : String).data ++ ':' ::
      (("00" : String).data ++ ':' :: (("10" : String).data ++ '.' ::
        ("0" : String).data))) from by decide]
  rw [parse_duration_marker _ _ _ _ (by decide) (by decide) (by decide) (by decide)
    (by decide) (by decide) (by decide)]
  rw [show digitsToNat ("00" : String).data = 0 from by decide,
    show digitsToNat ("10" : String).data = 10 from by decide,
    show digitsToNat ("0" : String).data = 0 from by decide,
    show (("0" : String).data).length = 1 from by decide]
  norm_num

theorem parse_progress_five :
    parse_progress "time=00:00:05.0 x" 100 = some 5 := by
  have hs : searchTimeMarker ("time=00:00:05.0 x" : String).data
      = some ("00:00:05.0" : String).data := by decide
  rw [parse_progress_capture _ 100 _ hs (by norm_num)]
  rw [show String.mk (("00:00:05.0" : String).data) = "00:00:05.0" from by decide]
  rw [show ("00:00:05.0" : String) = String.mk (("00" : String).data ++ ':' ::
      (("00" : String).data ++ ':' :: (("05" : String).data ++ '.' ::
        ("0" : String).data))) from by decide]
  rw [parse_duration_marker _ _ _ _ (by decide) (by decide) (by decide) (by decide)
    (by decide) (by decide) (by decide)]
  rw [show digitsToNat ("00" : String).data = 0 from by decide,
    show digitsToNat ("05" : String).data = 5 from by decide,
    show digitsToNat ("0" : String).data = 0 from by decide,
    show (("0" : String).data).length = 1 from by decide]
  norm_num

/-- C3 counterexample: with a 100-second total and the engine emitting
markers 10 s then 5 s (out of order), the job trace delivers progress
10, 5, 100 — not a non-decreasing sequence. The parser clamps but keeps no
maximum, so out-of-order markers surface as decreasing percentages. -/
theorem progress_not_monotone :
    progressList (runEvents outOfOrderEnv).1 = [10, 5, 100]
    ∧ ¬ List.Chain' (fun a b => a ≤ b)
        (progressList (runEvents outOfOrderEnv).1) := by
  have hloopc : (loopRun none 100 ["time=00:00:10.0 x", "time=00:00:05.0 x"] 0).1
      = [Event.progress 10, Event.progress 5] := by
    have h0 : (0 : ℚ) < 100 := by norm_num
    simp [loopRun, flagVal, lineEvents, parse_progress_ten, parse_progress_five, h0]
  have hev : (runEvents outOfOrderEnv).1
      = [Event.progress 10, Event.progress 5, Event.progress 100,
          Event.outcome true ("Proceso completado!\n" ++ "out.mp4")] := by
    have e1 : check_ffmpeg_availability outOfOrderEnv.ffmpegAvailable
        = Except.ok () := rfl
    have e2 : validate_input_file outOfOrderEnv.input = Except.ok () := rfl
    have e3 : check_disk_space outOfOrderEnv.disk (outOfOrderEnv.input.size * 2)
        = Except.ok () := rfl
    unfold runEvents
    rw [e1, e2, e3]
    dsimp only
    rw [show outOfOrderEnv.cancelAfter = none from rfl,
      show outOfOrderEnv.total_duration = (100 : ℚ) from rfl,
      show outOfOrderEnv.stderrLines
        = ["time=00:00:10.0 x", "time=00:00:05.0 x"] from rfl,
      show outOfOrderEnv.returncode = 0 from rfl, hloopc]
    rfl
  rw [hev]
  refine ⟨rfl, fun h => ?_⟩
  have h2 : List.Chain' (fun a b : ℤ => a ≤ b) [10, 5, 100] := h
  have h3 := (List.chain'_cons.mp h2).1
  norm_num at h3

theorem loopRun_take (ca : Option ℕ) (total : ℚ) :
    ∀ (lines : List String) (r : ℕ), ∃ n,
      (loopRun ca total lines r).1 = (lines.take n).flatMap (lineEvents total) := by
  intro lines
  induction lines with
  | nil =>
    intro r
    refine ⟨0, ?_⟩
    unfold loopRun
    split <;> rfl
  | cons l rest ih =>
    intro r
    by_cases hf : flagVal ca r = true
    · obtain ⟨n, hn⟩ := ih (r + 1)
      refine ⟨n + 1, ?_⟩
      unfold loopRun
      rw [if_pos hf]
      dsimp only
      rw [hn]
      rfl
    · refine ⟨0, ?_⟩
      unfold loopRun
      rw [if_neg hf]
      rfl

theorem flatMap_lineEvents_nonpos (total : ℚ) (hnp : ¬ 0 < total) :
    ∀ ls : List String, ls.flatMap (lineEvents total) = [] := by
  intro ls
  induction ls with
  | nil => rfl
  | cons l rest ih =>
    show lineEvents total l ++ rest.flatMap (lineEvents total) = []
    rw [ih]
    simp [lineEvents, hnp]

theorem progressList_append (a b : List Event) :
    progressList (a ++ b) = progressList a ++ progressList b := by
  unfold progressList
  simp [List.filterMap_append]

theorem markerValsOf_nonneg (ls : List String) : ∀ v ∈ markerValsOf ls, 0 ≤ v := by
  intro v hv
  unfold markerValsOf at hv
  simp only [List.mem_filterMap] at hv
  obtain ⟨l, _, hv2⟩ := hv
  cases hs : searchTimeMarker l.data with
  | none =>
    rw [hs] at hv2
    exact Option.noConfusion hv2
  | some cap =>
    rw [hs] at hv2
    have hv3 : parse_duration (String.mk cap) = v := Option.some.inj hv2
    obtain ⟨d1, d2, d3, d4, ⟨n1, h1⟩, ⟨n2, h2⟩, ⟨n3, h3⟩, ⟨n4, h4⟩, hcap⟩ :=
      searchTimeMarker_shape _ _ hs
    subst hcap
    rw [← hv3, parse_duration_marker d1 d2 d3 d4 n1 h1 n2 h2 n3 h3 h4]
    positivity

theorem progressList_flatMap (total : ℚ) (ht : 0 < total) :
    ∀ ls : List String,
      progressList (ls.flatMap (lineEvents total))
        = (markerValsOf ls).map fun v => min ⌊v / total * 100⌋ 100 := by
  intro ls
  induction ls with
  | nil => rfl
  | cons l rest ih =>
    have hstep : (l :: rest).flatMap (lineEvents total)
        = lineEvents total l ++ rest.flatMap (lineEvents total) := rfl
    rw [hstep, progressList_append]
    cases hs : searchTimeMarker l.data with
    | none =>
      have hnone : parse_progress l total = none := by
        unfold parse_progress
        rw [hs]
      have hle : lineEvents total l = [] := by
        unfold lineEvents
        rw [if_pos ht, hnone]
      have hmv : markerValsOf (l :: rest) = markerValsOf rest := by
        unfold markerValsOf
        simp [List.filterMap_cons, hs]
      rw [hle, hmv, ih]
      rfl
    | some cap =>
      have hpe : lineEvents total l = [Event.progress
          (min ⌊parse_duration (String.mk cap) / total * 100⌋ 100)] := by
        unfold lineEvents
        rw [if_pos ht, parse_progress_capture l total cap hs ht]
      have hmv : markerValsOf (l :: rest)
          = parse_duration (String.mk cap) :: markerValsOf rest := by
        unfold markerValsOf
        simp [List.filterMap_cons, hs]
      rw [hpe, hmv, ih]
      rfl

theorem chain_clamp_map (total : ℚ) (ht : 0 < total) :
    ∀ vs : List ℚ, List.Chain' (fun a b => a ≤ b) vs →
      List.Chain' (fun a b => a ≤ b)
        (vs.map fun v => min ⌊v / total * 100⌋ 100) := by
  intro vs
  induction vs with
  | nil => intro _; simp
  | cons a rest ih =>
    intro hc
    cases rest with
    | nil => simp
    | cons b rest2 =>
      rw [List.map_cons, List.map_cons, List.chain'_cons]
      rw [List.chain'_cons] at hc
      refine ⟨?_, ?_⟩
      · have h1 : a / total ≤ b / total :=
          (div_le_div_iff_of_pos_right ht).mpr hc.1
        have h2 := mul_le_mul_of_nonneg_right h1 (by norm_num : (0 : ℚ) ≤ 100)
        have h3 := Int.floor_le_floor h2
        omega
      · have h4 := ih hc.2
        rw [List.map_cons] at h4
        exact h4

/-- C3 amended: every progress percentage a job emits lies in `[0, 100]`
unconditionally; and whenever the time markers the parser extracts from the
stderr lines are non-decreasing, the emitted progress sequence is
non-decreasing (the code keeps no running maximum, so out-of-order markers —
see the counterexample — violate the original claim). -/
theorem progress_bounded_monotone (env : JobEnv) :
    (∀ p ∈ progressList (runEvents env).1, 0 ≤ p ∧ p ≤ 100)
    ∧ (List.Chain' (fun a b => a ≤ b) (markerValsOf env.stderrLines) →
        List.Chain' (fun a b => a ≤ b) (progressList (runEvents env).1)) := by
  obtain ⟨n, hn⟩ := loopRun_take env.cancelAfter env.total_duration env.stderrLines 0
  have hLb : (∀ p ∈ progressList
        (loopRun env.cancelAfter env.total_duration env.stderrLines 0).1,
        0 ≤ p ∧ p ≤ 100)
      ∧ (List.Chain' (fun a b => a ≤ b) (markerValsOf env.stderrLines) →
          List.Chain' (fun a b => a ≤ b) (progressList
            (loopRun env.cancelAfter env.total_duration env.stderrLines 0).1)) := by
    by_cases ht : 0 < env.total_duration
    · have hpl : progressList
          (loopRun env.cancelAfter env.total_duration env.stderrLines 0).1
          = (markerValsOf (env.stderrLines.take n)).map
              fun v => min ⌊v / env.total_duration * 100⌋ 100 := by
        rw [hn, progressList_flatMap _ ht]
      constructor
      · intro p hp
        rw [hpl] at hp
        obtain ⟨v, hv, rfl⟩ := List.mem_map.mp hp
        have hvn : 0 ≤ v := markerValsOf_nonneg _ v hv
        have hfl : 0 ≤ ⌊v / env.total_duration * 100⌋ :=
          Int.floor_nonneg.mpr (by positivity)
        exact ⟨by omega, min_le_right _ _⟩
      · intro hm
        rw [hpl]
        refine chain_clamp_map _ ht _ ?_
        refine List.Chain'.sublist hm ?_
        exact List.Sublist.filterMap _ (List.take_sublist n env.stderrLines)
    · have hL : (loopRun env.cancelAfter env.total_duration env.stderrLines 0).1
          = [] := by
        rw [hn, flatMap_lineEvents_nonpos _ ht]
      rw [hL]
      exact ⟨by simp [progressList], fun _ => by simp [progressList]⟩
  unfold runEvents
  cases hav : check_ffmpeg_availability env.ffmpegAvailable with
  | error pe => exact ⟨by simp [progressList], fun _ => by simp [progressList]⟩
  | ok u =>
    cases hv : validate_input_file env.input with
    | error pe => exact ⟨by simp [progressList], fun _ => by simp [progressList]⟩
    | ok u2 =>
      cases hd : check_disk_space env.disk (env.input.size * 2) with
      | error pe => exact ⟨by simp [progressList], fun _ => by simp [progressList]⟩
      | ok u3 =>
        dsimp only
        split
        · constructor
          · intro p hp
            rw [progressList_append] at hp
            rcases List.mem_append.mp hp with h | h
            · exact hLb.1 p h
            · have : p = 100 := by simpa [progressList] using h
              subst this
              exact ⟨by norm_num, le_refl _⟩
          · intro hm
            rw [progressList_append]
            rw [List.chain'_append]
            refine ⟨hLb.2 hm, by simp [progressList], ?_⟩
            intro x hx y hy
            have hx2 : x ∈ progressList
                (loopRun env.cancelAfter env.total_duration env.stderrLines 0).1 :=
              List.mem_of_mem_getLast? hx
            have hy2 : (100 : ℤ) = y := by
              simpa [progressList] using hy
            subst hy2
            exact (hLb.1 x hx2).2
        · split
          · constructor
            · intro p hp
              rw [progressList_append] at hp
              rcases List.mem_append.mp hp with h | h
              · exact hLb.1 p h
              · simp [progressList] at h
            · intro hm
              rw [progressList_append]
              have : progressList [Event.outcome false
                  ("Error en FFmpeg. Código: " ++ toString env.returncode)]
                  = [] := rfl
              rw [this, List.append_nil]
              exact hLb.2 hm
          · constructor
            · intro p hp
              rw [progressList_append] at hp
              rcases List.mem_append.mp hp with h | h
              · exact hLb.1 p h
              · simp [progressList] at h
            · intro hm
              rw [progressList_append]
              have : progressList
                  [Event.outcome false "Conversión cancelada por el usuario"]
                  = [] := rfl
              rw [this, List.append_nil]
              exact hLb.2 hm

/-- Witness for the amended C3 at a concrete job with no diagnostic lines
(whose marker sequence is trivially non-decreasing). -/
theorem progress_bounded_monotone_witness :
    List.Chain' (fun a b => a ≤ b) (progressList (runEvents quietEnv).1) :=
  (progress_bounded_monotone quietEnv).2 (by simp [markerValsOf, quietEnv])

end Jeel
